import Mathlib

/-!
Shallow embedding of the network transport substrate of the aravis
repository (file src/arvcamera.c): the address classifier
(arv_network_interface_is_loopback, arv_network_get_fake_ipv4_loopback),
the POSIX interface enumerator (arv_enumerate_network_interfaces), the
port-range registry (arv_set_gv_port_range,
arv_set_gv_port_range_from_string) and the socket binder
(arv_socket_bind_with_range).

Machine integers: ports and registry bounds are guint16/guint32 in C.
All reachable registry states satisfy minimum ≤ maximum (with both
values below 2^16), so the guint32 subtractions maximum - minimum and
the modulus maximum - minimum + 1 never wrap; they are modelled with
Nat arithmetic, and theorems about the scan carry the minimum ≤ maximum
hypothesis that every state installed by arv_set_gv_port_range enjoys.
g_ascii_strtoull results are assigned to guint16 variables, which
truncates mod 2^16; the embedding keeps the explicit % 65536.

Side effects: the GLib mutex serialises calls; each C function is
embedded as a pure function from the registry state (PortState) to a
result together with the successor state.  g_socket_bind is an external
syscall; it is abstracted as an oracle tryBind : Nat → GBindOutcome
giving the outcome of a bind attempt at each port.  The binder is also
instrumented with the list of ports it attempts, in order, so that
"number of candidates scanned" and "cursor advanced before each
attempt" are stateable; the instrumentation does not alter control
flow.
-/

/-- A GError: an error domain (GQuark) together with an error code.
The binder only ever inspects the pair (G_IO_ERROR,
G_IO_ERROR_ADDRESS_IN_USE), so domains and codes are opaque numbers. -/
structure GError where
  domain : Nat
  code : Nat
deriving DecidableEq, Repr

/-- The GQuark of the g-io-error domain (opaque tag). -/
def G_IO_ERROR : Nat := 1

/-- G_IO_ERROR_ADDRESS_IN_USE code within the g-io-error domain. -/
def G_IO_ERROR_ADDRESS_IN_USE : Nat := 26

/-- Outcome of one g_socket_bind call: success, or failure; on failure
the GError out-parameter may or may not have been set (the C code
checks local_error for NULL before inspecting it). -/
inductive GBindOutcome where
  | success : GBindOutcome
  | failure : Option GError → GBindOutcome
deriving DecidableEq, Repr

/-- Error result of arv_socket_bind_with_range: either an error
propagated unchanged from g_socket_bind (the GError the syscall set, if
any), or the ARV_NETWORK_ERROR_PORT_EXHAUSTION error carrying the
configured bounds that appear in its message. -/
inductive BindFailure where
  | propagated : Option GError → BindFailure
  | portExhaustion : Nat → Nat → BindFailure
deriving DecidableEq, Repr

/-- The process-wide port range registry: statics arv_port_minimum,
arv_port_maximum, arv_last_port_offset, guarded by arv_port_mutex. -/
structure PortState where
  minimum : Nat
  maximum : Nat
  lastOffset : Nat
deriving DecidableEq, Repr

/-- arv_set_gv_port_range: g_return_val_if_fail (min <= max, FALSE);
otherwise installs the bounds and sets
arv_last_port_offset = maximum - minimum.  Returns the gboolean result
and the successor registry state. -/
def arv_set_gv_port_range (st : PortState) (mn mx : Nat) : Bool × PortState :=
  if mn ≤ mx then
    (true, { minimum := mn, maximum := mx, lastOffset := mx - mn })
  else
    (false, st)

/-- True when the character is an ASCII decimal digit, the only
characters the pattern [\d] of the GRegex accepts. -/
def isAsciiDigit (c : Char) : Bool := decide ('0' ≤ c) && decide (c ≤ '9')

/-- Splits a character list at its first dash: the regex
^([\d]+)-([\d]+)$ forces exactly this decomposition, since [\d]+ can
never consume a dash (a second dash simply makes the tail fail the
digits-only test). -/
def splitAtDash : List Char → Option (List Char × List Char)
  | [] => none
  | c :: rest =>
    if c = '-' then
      some ([], rest)
    else
      match splitAtDash rest with
      | some (a, b) => some (c :: a, b)
      | none => none

/-- Decimal value of a digit string, as g_ascii_strtoull computes it on
an all-digits input (clamping at 2^64 - 1 is ignored; every string a
claim touches is far below it). -/
def digitsVal : List Char → Nat → Nat
  | [], acc => acc
  | c :: rest, acc => digitsVal rest (acc * 10 + (c.toNat - 48))

/-- The default dollar anchor: g_regex_new is called with compile
options 0, without G_REGEX_DOLLAR_ENDONLY, so $ asserts a match at the
end of the subject and also immediately before one final newline.  The
anchored whole-string pattern therefore matches the subject iff it
matches the subject less one optional trailing newline (a second
trailing newline cannot be absorbed: only the position before the last
one is an end anchor, and [\d]+ cannot consume the one before it). -/
def dropFinalNewline (cs : List Char) : List Char :=
  match cs.getLast? with
  | some c => if c = '\n' then cs.dropLast else cs
  | none => cs

/-- The match of ^([\d]+)-([\d]+)$ under default compile options ($
also matching before one final trailing newline) plus g_ascii_strtoull
on both groups: some (min64, max64) exactly when the subject, less an
optional single trailing newline, is <digits>-<digits>; none
otherwise. -/
def parsePortRange (s : String) : Option (Nat × Nat) :=
  match splitAtDash (dropFinalNewline s.data) with
  | some (a, b) =>
    if a ≠ [] ∧ b ≠ [] ∧ a.all isAsciiDigit ∧ b.all isAsciiDigit then
      some (digitsVal a 0, digitsVal b 0)
    else
      none
  | none => none

/-- The claim's wording of the accepted inputs, for comparison with the
code's regex semantics: the exact pattern
<non-negative integer>-<non-negative integer> covering the whole
string, with no further characters. -/
def matchesExactRangePattern (s : String) : Bool :=
  match splitAtDash s.data with
  | some (a, b) =>
    decide (a ≠ []) && decide (b ≠ []) && a.all isAsciiDigit &&
      b.all isAsciiDigit
  | none => false

/-- arv_set_gv_port_range_from_string: on a regex match the two groups
are parsed and assigned to guint16 variables (truncation mod 2^16); a
parsed pair with min > max returns FALSE immediately, otherwise
arv_set_gv_port_range is called; a failed match returns the gboolean
success flag of g_regex_match, i.e. FALSE. -/
def arv_set_gv_port_range_from_string (st : PortState) (s : String) : Bool × PortState :=
  match parsePortRange s with
  | some (a, b) =>
    let mn := a % 65536
    let mx := b % 65536
    if mn > mx then
      (false, st)
    else
      arv_set_gv_port_range st mn mx
  | none => (false, st)

/-- The test the scan applies to a bind failure before continuing:
local_error->domain == G_IO_ERROR and local_error->code ==
G_IO_ERROR_ADDRESS_IN_USE (the C negates it to decide propagation). -/
def isAddressInUse (ge : GError) : Bool :=
  ge.domain == G_IO_ERROR && ge.code == G_IO_ERROR_ADDRESS_IN_USE

/-- A bind outcome the scan loop continues past: a failure that either
set no GError, or set the address-in-use error.  A success or any other
error stops the loop. -/
def attemptContinues (o : GBindOutcome) : Bool :=
  match o with
  | .success => false
  | .failure none => true
  | .failure (some ge) => isAddressInUse ge

/-- One run of arv_socket_bind_with_range: the returned socket address
is represented by the port it carries (the GInetAddress part is the
caller's argument, unchanged), together with the registry state on
release of the mutex and the instrumentation trace of ports attempted,
in order. -/
structure BindRun where
  result : Except BindFailure Nat
  finalState : PortState
  attempts : List Nat
deriving Repr

/-- The for-loop of arv_socket_bind_with_range, i running over the
remaining iteration count (the C loop executes maximum - minimum + 1
iterations in total).  Each iteration advances
arv_last_port_offset = (arv_last_port_offset + 1) % (mx - mn + 1)
before binding mn + arv_last_port_offset; success returns immediately;
a failure whose GError is NULL or address-in-use continues; any other
GError is propagated; falling off the loop is port exhaustion citing
the bounds.  Returns (result, final lastOffset, attempted ports). -/
def scanLoop (tryBind : Nat → GBindOutcome) (mn mx : Nat) :
    Nat → Nat → Except BindFailure Nat × Nat × List Nat
  | off, 0 => (.error (.portExhaustion mn mx), off, [])
  | off, fuel + 1 =>
    let off1 := (off + 1) % (mx - mn + 1)
    let p := mn + off1
    match tryBind p with
    | .success => (.ok p, off1, [p])
    | .failure none =>
      let r := scanLoop tryBind mn mx off1 fuel
      (r.1, r.2.1, p :: r.2.2)
    | .failure (some ge) =>
      if isAddressInUse ge then
        let r := scanLoop tryBind mn mx off1 fuel
        (r.1, r.2.1, p :: r.2.2)
      else
        (.error (.propagated (some ge)), off1, [p])

/-- arv_socket_bind_with_range: under the mutex, a non-zero requested
port or a disabled range (both bounds zero) makes one direct
g_socket_bind attempt at the requested port, any error propagated
unchanged; otherwise the round-robin scan over the configured range
runs, its final cursor written back to the registry. -/
def arv_socket_bind_with_range (tryBind : Nat → GBindOutcome) (st : PortState)
    (port : Nat) : BindRun :=
  if port ≠ 0 ∨ (st.minimum = 0 ∧ st.maximum = 0) then
    match tryBind port with
    | .success => ⟨.ok port, st, [port]⟩
    | .failure e => ⟨.error (.propagated e), st, [port]⟩
  else
    let r := scanLoop tryBind st.minimum st.maximum st.lastOffset
      (st.maximum - st.minimum + 1)
    ⟨r.1, { st with lastOffset := r.2.1 }, r.2.2⟩

/-- A sockaddr as the module uses it: the sa_family tag with the bytes
the corresponding branch reads.  IPv4 carries the four octets of
sin_addr in network order (b0 is the leading byte); IPv6 carries the 16
octets of sin6_addr in network order; any other family carries only its
tag. -/
inductive SockAddr where
  | ipv4 : Nat → Nat → Nat → Nat → SockAddr
  | ipv6 : List Nat → SockAddr
  | other : Nat → SockAddr
deriving DecidableEq, Repr

/-- ntohl of the stored sin_addr.s_addr: the network-order octets
assembled into the host-order 32-bit value. -/
def ipv4HostOrder (b0 b1 b2 b3 : Nat) : Nat :=
  ((b0 * 256 + b1) * 256 + b2) * 256 + b3

/-- An ArvNetworkInterface record: addr, netmask, broadaddr, name.  The
three sockaddr pointers and the name pointer may be NULL in general
(g_new0), so netmask, broadaddr and name are Options; every descriptor
the module constructs sets addr, which is therefore plain. -/
structure ArvNetworkInterface where
  addr : SockAddr
  netmask : Option SockAddr
  broadaddr : Option SockAddr
  name : Option String
deriving DecidableEq, Repr

/-- The IPv6 loop of arv_network_interface_is_loopback: pos runs while
pos < 16 (the fuel argument counts the remaining iterations, 16 - pos),
returning FALSE at the first nonzero byte, and after the loop the code
reads i6[16] and returns (i6[16] != 1 ? FALSE : TRUE).  sin6_addr is 16
bytes, so indexing is Option-valued: reading outside the 16 stored
bytes yields none (the out-of-bounds access has no defined value). -/
def ipv6ScanFrom (bytes : List Nat) : Nat → Nat → Option Bool
  | _, 0 =>
    match bytes[16]? with
    | none => none
    | some b => if b ≠ 1 then some false else some true
  | pos, fuel + 1 =>
    match bytes[pos]? with
    | none => none
    | some b => if b ≠ 0 then some false else ipv6ScanFrom bytes (pos + 1) fuel

/-- arv_network_interface_is_loopback: NULL → FALSE; AF_INET →
(ntohl (sin_addr) >> 24) == 0x7f; AF_INET6 → the byte loop above;
any other family → FALSE.  The result is none exactly when evaluation
reaches an undefined (out-of-bounds) byte read. -/
def arv_network_interface_is_loopback (a : Option ArvNetworkInterface) : Option Bool :=
  match a with
  | none => some false
  | some ni =>
    match ni.addr with
    | .ipv4 b0 b1 b2 b3 => some (ipv4HostOrder b0 b1 b2 b3 >>> 24 == 0x7f)
    | .ipv6 bytes => ipv6ScanFrom bytes 0 16
    | .other _ => some false

/-- arv_network_get_fake_ipv4_loopback: the fixed sentinel descriptor,
name "<fake IPv4 localhost>", addr htonl 0x7f000001 = 127.0.0.1,
netmask htonl 0xff000000 = 255.0.0.0, broadaddr htonl 0x7fffffff =
127.255.255.255. -/
def arv_network_get_fake_ipv4_loopback : ArvNetworkInterface :=
  { addr := .ipv4 0x7f 0x00 0x00 0x01
    netmask := some (.ipv4 0xff 0x00 0x00 0x00)
    broadaddr := some (.ipv4 0x7f 0xff 0xff 0xff)
    name := some "<fake IPv4 localhost>" }

/-- The two POSIX build variants of the enumeration's broadcast
handling: the Apple/BSD branch (sa_len metadata available) and the
other-POSIX branch of the #else. -/
inductive ArvPlatform where
  | apple_bsd : ArvPlatform
  | posix_other : ArvPlatform
deriving DecidableEq, Repr

/-- IFF_UP flag bit tested by the enumeration filter. -/
def IFF_UP : Nat := 1

/-- One ifaddrs entry as getifaddrs reports it: ifa_flags, ifa_addr,
ifa_netmask, the broadcast pointer (ifa_broadaddr on Apple/BSD,
ifa_ifu.ifu_broadaddr elsewhere; NULL or zero sa_len are both folded
into none, the "no broadcast exposed" case), and ifa_name. -/
structure Ifaddrs where
  flags : Nat
  addr : Option SockAddr
  netmask : Option SockAddr
  broadaddr : Option SockAddr
  name : Option String
deriving DecidableEq, Repr

/-- True for an AF_INET sockaddr. -/
def isAfInet : SockAddr → Bool
  | .ipv4 _ _ _ _ => true
  | _ => false

/-- The enumeration filter: (ifa_flags & IFF_UP) != 0, ifa_addr !=
NULL, ifa_addr->sa_family == AF_INET. -/
def acceptsEntry (e : Ifaddrs) : Bool :=
  (e.flags &&& IFF_UP != 0) &&
    (match e.addr with
     | some a => isAfInet a
     | none => false)

/-- The per-entry descriptor construction of
arv_enumerate_network_interfaces: addr and netmask copied; broadcast on
Apple/BSD copied when exposed and otherwise defaulted to the entry's
own address (the fakecamera loopback workaround), while the other-POSIX
branch copies ifu_broadaddr only when present, leaving broadaddr NULL
otherwise; name copied when present. -/
def mkInterface (p : ArvPlatform) (e : Ifaddrs) : ArvNetworkInterface :=
  let a := e.addr.getD (SockAddr.other 0)
  { addr := a
    netmask := e.netmask
    broadaddr :=
      match p with
      | .apple_bsd =>
        match e.broadaddr with
        | some b => some b
        | none => some a
      | .posix_other => e.broadaddr
    name := e.name }

/-- arv_enumerate_network_interfaces (POSIX): walk the ifaddrs list,
prepend a descriptor for each accepted entry, and reverse at the end
(g_list_prepend then g_list_reverse). -/
def arv_enumerate_network_interfaces (p : ArvPlatform) (ifap : List Ifaddrs) :
    List ArvNetworkInterface :=
  (ifap.foldl
    (fun ret e => if acceptsEntry e then mkInterface p e :: ret else ret)
    []).reverse

/-! ### Helper lemmas about the scan loop -/

/-- The scan attempts at most `fuel` ports. -/
theorem scanLoop_trace_length (tryBind : Nat → GBindOutcome) (mn mx : Nat) :
    ∀ fuel off, ((scanLoop tryBind mn mx off fuel).2.2).length ≤ fuel := by
  intro fuel
  induction fuel with
  | zero => intro off; simp [scanLoop]
  | succ k ih =>
    intro off
    cases h : tryBind (mn + (off + 1) % (mx - mn + 1)) with
    | success => simp [scanLoop, h]
    | failure e =>
      cases e with
      | none =>
        simp only [scanLoop, h]
        exact Nat.succ_le_succ (ih _)
      | some ge =>
        by_cases hin : isAddressInUse ge
        · simp only [scanLoop, h, hin, if_true]
          exact Nat.succ_le_succ (ih _)
        · simp [scanLoop, h, hin]

/-- The k-th attempted port is mn + (off + k + 1) % (mx - mn + 1): the
cursor is advanced by one, modulo the range size, before each attempt,
starting from the incoming cursor value off. -/
theorem scanLoop_trace_get (tryBind : Nat → GBindOutcome) (mn mx : Nat) :
    ∀ fuel off k, k < ((scanLoop tryBind mn mx off fuel).2.2).length →
      ((scanLoop tryBind mn mx off fuel).2.2)[k]? =
        some (mn + (off + (k + 1)) % (mx - mn + 1)) := by
  intro fuel
  induction fuel with
  | zero => intro off k hk; simp [scanLoop] at hk
  | succ fl ih =>
    intro off k hk
    cases h : tryBind (mn + (off + 1) % (mx - mn + 1)) with
    | success =>
      simp [scanLoop, h] at hk
      subst hk
      simp [scanLoop, h]
    | failure e =>
      have step : ∀ kk, kk + 1 = k →
          kk < ((scanLoop tryBind mn mx ((off + 1) % (mx - mn + 1)) fl).2.2).length →
          ((scanLoop tryBind mn mx ((off + 1) % (mx - mn + 1)) fl).2.2)[kk]? =
            some (mn + (off + (k + 1)) % (mx - mn + 1)) := by
        intro kk hkk hlt
        have := ih ((off + 1) % (mx - mn + 1)) kk hlt
        rw [this]
        have harg : off + 1 + (kk + 1) = off + (k + 1) := by omega
        rw [Nat.mod_add_mod, harg]
      cases e with
      | none =>
        simp only [scanLoop, h] at hk ⊢
        cases k with
        | zero => simp
        | succ kk =>
          simp only [List.getElem?_cons_succ]
          exact step kk rfl (by simpa using hk)
      | some ge =>
        by_cases hin : isAddressInUse ge
        · simp only [scanLoop, h, hin, if_true] at hk ⊢
          cases k with
          | zero => simp
          | succ kk =>
            simp only [List.getElem?_cons_succ]
            exact step kk rfl (by simpa using hk)
        · simp only [scanLoop, h, hin, if_false] at hk ⊢
          simp at hk
          subst hk
          simp

/-- Any port the scan successfully binds lies in [mn, mx]. -/
theorem scanLoop_ok_in_range (tryBind : Nat → GBindOutcome) (mn mx : Nat)
    (hmn : mn ≤ mx) :
    ∀ fuel off p, (scanLoop tryBind mn mx off fuel).1 = .ok p →
      mn ≤ p ∧ p ≤ mx := by
  intro fuel
  induction fuel with
  | zero => intro off p hp; simp [scanLoop] at hp
  | succ fl ih =>
    intro off p hp
    have hlt : (off + 1) % (mx - mn + 1) < mx - mn + 1 :=
      Nat.mod_lt _ (Nat.succ_pos _)
    cases h : tryBind (mn + (off + 1) % (mx - mn + 1)) with
    | success =>
      simp [scanLoop, h] at hp
      omega
    | failure e =>
      cases e with
      | none =>
        simp only [scanLoop, h] at hp
        exact ih _ _ hp
      | some ge =>
        by_cases hin : isAddressInUse ge
        · simp only [scanLoop, h, hin, if_true] at hp
          exact ih _ _ hp
        · simp [scanLoop, h, hin] at hp

/-- When every port's bind outcome is a continuable failure, the scan
exhausts all its fuel, attempting exactly fuel ports, and reports port
exhaustion carrying the configured bounds. -/
theorem scanLoop_exhausts (tryBind : Nat → GBindOutcome) (mn mx : Nat)
    (hall : ∀ p, attemptContinues (tryBind p) = true) :
    ∀ fuel off, (scanLoop tryBind mn mx off fuel).1 =
        .error (.portExhaustion mn mx) ∧
      ((scanLoop tryBind mn mx off fuel).2.2).length = fuel := by
  intro fuel
  induction fuel with
  | zero => intro off; simp [scanLoop]
  | succ fl ih =>
    intro off
    have hc := hall (mn + (off + 1) % (mx - mn + 1))
    cases h : tryBind (mn + (off + 1) % (mx - mn + 1)) with
    | success => rw [h] at hc; simp [attemptContinues] at hc
    | failure e =>
      cases e with
      | none =>
        simp only [scanLoop, h]
        exact ⟨(ih _).1, by simp [(ih _).2]⟩
      | some ge =>
        rw [h] at hc
        simp only [attemptContinues] at hc
        simp only [scanLoop, h, hc, if_true]
        exact ⟨(ih _).1, by simp [(ih _).2]⟩

/-- When the scan result is a propagated error, the error was set by
g_socket_bind (non-NULL), is not address-in-use, and is exactly the
outcome of the last attempted port: the scan stopped there, changing
nothing about the error. -/
theorem scanLoop_propagated (tryBind : Nat → GBindOutcome) (mn mx : Nat) :
    ∀ fuel off e, (scanLoop tryBind mn mx off fuel).1 =
        .error (.propagated e) →
      ∃ ge, e = some ge ∧ isAddressInUse ge = false ∧
        ∃ p, ((scanLoop tryBind mn mx off fuel).2.2).getLast? = some p ∧
          tryBind p = .failure (some ge) := by
  intro fuel
  induction fuel with
  | zero => intro off e he; simp [scanLoop] at he
  | succ fl ih =>
    intro off e he
    cases h : tryBind (mn + (off + 1) % (mx - mn + 1)) with
    | success => simp [scanLoop, h] at he
    | failure e0 =>
      cases e0 with
      | none =>
        simp only [scanLoop, h] at he ⊢
        obtain ⟨ge, hge, hni, p, hp, htb⟩ := ih _ _ he
        refine ⟨ge, hge, hni, p, ?_, htb⟩
        rw [List.getLast?_cons]
        have : ((scanLoop tryBind mn mx ((off + 1) % (mx - mn + 1)) fl).2.2) ≠ [] := by
          intro hnil
          rw [hnil] at hp
          simp at hp
        rw [List.getLast?_eq_getLast _ (by simpa using this)] at hp ⊢
        simpa [this] using hp
      | some ge =>
        by_cases hin : isAddressInUse ge
        · simp only [scanLoop, h, hin, if_true] at he ⊢
          obtain ⟨ge2, hge, hni, p, hp, htb⟩ := ih _ _ he
          refine ⟨ge2, hge, hni, p, ?_, htb⟩
          rw [List.getLast?_cons]
          have : ((scanLoop tryBind mn mx ((off + 1) % (mx - mn + 1)) fl).2.2) ≠ [] := by
            intro hnil
            rw [hnil] at hp
            simp at hp
          rw [List.getLast?_eq_getLast _ (by simpa using this)] at hp ⊢
          simpa [this] using hp
        · simp only [scanLoop, h, hin, if_false] at he ⊢
          simp at he
          subst he
          exact ⟨ge, rfl, by simpa using hin, _, by simp, h⟩

/-- Every attempted port other than the last failed with a continuable
outcome: only a NULL-error or address-in-use failure lets the scan move
on to a further candidate. -/
theorem scanLoop_nonfinal_continues (tryBind : Nat → GBindOutcome) (mn mx : Nat) :
    ∀ fuel off k p, ((scanLoop tryBind mn mx off fuel).2.2)[k]? = some p →
      k + 1 < ((scanLoop tryBind mn mx off fuel).2.2).length →
      attemptContinues (tryBind p) = true := by
  intro fuel
  induction fuel with
  | zero => intro off k p hk hlt; simp [scanLoop] at hk
  | succ fl ih =>
    intro off k p hk hlt
    cases h : tryBind (mn + (off + 1) % (mx - mn + 1)) with
    | success =>
      simp [scanLoop, h] at hlt
    | failure e0 =>
      cases e0 with
      | none =>
        simp only [scanLoop, h] at hk hlt
        cases k with
        | zero =>
          simp at hk
          subst hk
          simp [attemptContinues, h]
        | succ kk =>
          simp only [List.getElem?_cons_succ] at hk
          exact ih _ kk p hk (by simpa using hlt)
      | some ge =>
        by_cases hin : isAddressInUse ge
        · simp only [scanLoop, h, hin, if_true] at hk hlt
          cases k with
          | zero =>
            simp at hk
            subst hk
            simp [attemptContinues, h, hin]
          | succ kk =>
            simp only [List.getElem?_cons_succ] at hk
            exact ih _ kk p hk (by simpa using hlt)
        · simp only [scanLoop, h, hin, if_false] at hlt
          simp at hlt

/-! ### Helper lemmas about enumeration and the IPv6 loop -/

/-- The prepend-then-reverse bookkeeping of the enumeration equals a
filter followed by a map, in platform-reported order. -/
theorem enumerate_eq_filter_map (p : ArvPlatform) (ifap : List Ifaddrs) :
    arv_enumerate_network_interfaces p ifap =
      (ifap.filter acceptsEntry).map (mkInterface p) := by
  have key : ∀ (l : List Ifaddrs) (acc : List ArvNetworkInterface),
      (l.foldl
        (fun ret e => if acceptsEntry e then mkInterface p e :: ret else ret)
        acc).reverse =
        acc.reverse ++ (l.filter acceptsEntry).map (mkInterface p) := by
    intro l
    induction l with
    | nil => intro acc; simp
    | cons e rest ih =>
      intro acc
      by_cases he : acceptsEntry e
      · simp [List.foldl_cons, he, ih]
      · simp [List.foldl_cons, he, ih]
  simpa using key ifap []

/-- After the IPv6 loop has passed every byte position from pos to 15
as zero, the final read is of index 16; when the address holds exactly
its 16 bytes that read is out of bounds and the scan's value is
undefined (none). -/
theorem ipv6ScanFrom_all_zero (bytes : List Nat) (hlen : bytes.length = 16)
    (hz : ∀ i, i < 16 → bytes[i]? = some 0) :
    ∀ fuel pos, pos + fuel = 16 → ipv6ScanFrom bytes pos fuel = none := by
  intro fuel
  induction fuel with
  | zero =>
    intro pos hpos
    have h16 : bytes[16]? = none := by
      rw [List.getElem?_eq_none_iff]
      omega
    simp [ipv6ScanFrom, h16]
  | succ fl ih =>
    intro pos hpos
    have hb : bytes[pos]? = some 0 := hz pos (by omega)
    simp only [ipv6ScanFrom, hb]
    simpa using ih (pos + 1) (by omega)

/-- One scan iteration always attempts a first port, the cursor
advanced once from its incoming value. -/
theorem scanLoop_head (tryBind : Nat → GBindOutcome) (mn mx off fuel : Nat) :
    ((scanLoop tryBind mn mx off (fuel + 1)).2.2)[0]? =
      some (mn + (off + 1) % (mx - mn + 1)) := by
  cases h : tryBind (mn + (off + 1) % (mx - mn + 1)) with
  | success => simp [scanLoop, h]
  | failure e =>
    cases e with
    | none => simp [scanLoop, h]
    | some ge =>
      by_cases hin : isAddressInUse ge
      · simp [scanLoop, h, hin]
      · simp [scanLoop, h, hin]

/-! ### Claim theorems -/

/-- C1: with a valid enabled range (minimum ≤ maximum, not both zero)
installed, an automatic-port bind (requestedPort = 0) attempts at most
maximum − minimum + 1 candidate ports; the k-th attempted port is
minimum + (lastOffset + k + 1) % (maximum − minimum + 1), i.e. the
shared cursor is advanced by (lastOffset + 1) mod the range size before
each attempt, continuing from the incoming cursor; and any successfully
returned socket address carries a port within [minimum, maximum]. -/
theorem c1_auto_bind_scan (tryBind : Nat → GBindOutcome) (st : PortState)
    (hmn : st.minimum ≤ st.maximum)
    (hen : ¬(st.minimum = 0 ∧ st.maximum = 0)) :
    (arv_socket_bind_with_range tryBind st 0).attempts.length ≤
        st.maximum - st.minimum + 1 ∧
    (∀ k, k < (arv_socket_bind_with_range tryBind st 0).attempts.length →
      (arv_socket_bind_with_range tryBind st 0).attempts[k]? =
        some (st.minimum +
          (st.lastOffset + (k + 1)) % (st.maximum - st.minimum + 1))) ∧
    (∀ p, (arv_socket_bind_with_range tryBind st 0).result = .ok p →
      st.minimum ≤ p ∧ p ≤ st.maximum) := by
  have hcond : ¬((0 : Nat) ≠ 0 ∨ (st.minimum = 0 ∧ st.maximum = 0)) := by
    simpa using hen
  have hrw : arv_socket_bind_with_range tryBind st 0 =
      ⟨(scanLoop tryBind st.minimum st.maximum st.lastOffset
          (st.maximum - st.minimum + 1)).1,
        { st with lastOffset :=
          (scanLoop tryBind st.minimum st.maximum st.lastOffset
            (st.maximum - st.minimum + 1)).2.1 },
        (scanLoop tryBind st.minimum st.maximum st.lastOffset
          (st.maximum - st.minimum + 1)).2.2⟩ := by
    rw [arv_socket_bind_with_range, if_neg hcond]
  rw [hrw]
  refine ⟨scanLoop_trace_length tryBind st.minimum st.maximum _ _, ?_, ?_⟩
  · intro k hk
    exact scanLoop_trace_get tryBind st.minimum st.maximum _ _ k hk
  · intro p hp
    exact scanLoop_ok_in_range tryBind st.minimum st.maximum hmn _ _ p hp

/-- C1 witness: the range [9000, 9002] with cursor 2 and an
all-success bind oracle. -/
theorem c1_auto_bind_scan_witness :
    ((9000 : Nat) ≤ 9002 ∧ ¬((9000 : Nat) = 0 ∧ (9002 : Nat) = 0)) ∧
    ((arv_socket_bind_with_range (fun _ => .success) ⟨9000, 9002, 2⟩
        0).attempts.length ≤ 9002 - 9000 + 1 ∧
      (∀ k, k < (arv_socket_bind_with_range (fun _ => .success) ⟨9000, 9002, 2⟩
          0).attempts.length →
        (arv_socket_bind_with_range (fun _ => .success) ⟨9000, 9002, 2⟩
          0).attempts[k]? = some (9000 + (2 + (k + 1)) % (9002 - 9000 + 1))) ∧
      (∀ p, (arv_socket_bind_with_range (fun _ => .success) ⟨9000, 9002, 2⟩
          0).result = .ok p → 9000 ≤ p ∧ p ≤ 9002)) :=
  ⟨⟨by decide, by decide⟩,
    c1_auto_bind_scan (fun _ => .success) ⟨9000, 9002, 2⟩ (by decide) (by decide)⟩

/-- C3: during an automatic-port scan, (a) every attempted candidate
other than the last failed with a continuable outcome (address-in-use,
or a failure that set no error), so an address-in-use failure makes the
scan continue; (b) a propagated error is exactly the non-address-in-use
error the last attempted candidate's bind call produced, unchanged, and
the scan stopped at that candidate; (c) when every candidate fails
continuably, all maximum − minimum + 1 candidates are attempted and the
result is the PortExhaustion error reporting the configured bounds. -/
theorem c3_scan_error_handling (tryBind : Nat → GBindOutcome) (st : PortState)
    (_hmn : st.minimum ≤ st.maximum)
    (hen : ¬(st.minimum = 0 ∧ st.maximum = 0)) :
    (∀ k p, (arv_socket_bind_with_range tryBind st 0).attempts[k]? = some p →
      k + 1 < (arv_socket_bind_with_range tryBind st 0).attempts.length →
      attemptContinues (tryBind p) = true) ∧
    (∀ e, (arv_socket_bind_with_range tryBind st 0).result =
        .error (.propagated e) →
      ∃ ge, e = some ge ∧ isAddressInUse ge = false ∧
        ∃ p, (arv_socket_bind_with_range tryBind st 0).attempts.getLast? =
            some p ∧ tryBind p = .failure (some ge)) ∧
    ((∀ p, attemptContinues (tryBind p) = true) →
      (arv_socket_bind_with_range tryBind st 0).result =
          .error (.portExhaustion st.minimum st.maximum) ∧
        (arv_socket_bind_with_range tryBind st 0).attempts.length =
          st.maximum - st.minimum + 1) := by
  have hcond : ¬((0 : Nat) ≠ 0 ∨ (st.minimum = 0 ∧ st.maximum = 0)) := by
    simpa using hen
  have hrw : arv_socket_bind_with_range tryBind st 0 =
      ⟨(scanLoop tryBind st.minimum st.maximum st.lastOffset
          (st.maximum - st.minimum + 1)).1,
        { st with lastOffset :=
          (scanLoop tryBind st.minimum st.maximum st.lastOffset
            (st.maximum - st.minimum + 1)).2.1 },
        (scanLoop tryBind st.minimum st.maximum st.lastOffset
          (st.maximum - st.minimum + 1)).2.2⟩ := by
    rw [arv_socket_bind_with_range, if_neg hcond]
  rw [hrw]
  refine ⟨?_, ?_, ?_⟩
  · intro k p hk hlt
    exact scanLoop_nonfinal_continues tryBind st.minimum st.maximum _ _ k p hk hlt
  · intro e he
    exact scanLoop_propagated tryBind st.minimum st.maximum _ _ e he
  · intro hall
    exact scanLoop_exhausts tryBind st.minimum st.maximum hall _ _

/-- C3 witness: range [9000, 9001], cursor 1, every port answering
address-in-use: both candidates are attempted and the scan exhausts,
citing the bounds 9000 and 9001. -/
theorem c3_scan_error_handling_witness :
    ((9000 : Nat) ≤ 9001 ∧ ¬((9000 : Nat) = 0 ∧ (9001 : Nat) = 0)) ∧
    (arv_socket_bind_with_range
        (fun _ => .failure (some ⟨G_IO_ERROR, G_IO_ERROR_ADDRESS_IN_USE⟩))
        ⟨9000, 9001, 1⟩ 0).result =
      .error (.portExhaustion 9000 9001) ∧
    (arv_socket_bind_with_range
        (fun _ => .failure (some ⟨G_IO_ERROR, G_IO_ERROR_ADDRESS_IN_USE⟩))
        ⟨9000, 9001, 1⟩ 0).attempts.length = 9001 - 9000 + 1 :=
  ⟨⟨by decide, by decide⟩,
    (c3_scan_error_handling
      (fun _ => .failure (some ⟨G_IO_ERROR, G_IO_ERROR_ADDRESS_IN_USE⟩))
      ⟨9000, 9001, 1⟩ (by decide) (by decide)).2.2
      (fun _ => by decide)⟩

/-- C4: a bind with a non-zero requested port, or any bind while the
range is disabled (minimum = 0 and maximum = 0), makes exactly one
direct attempt at the requested port — regardless of the configured
range — leaves the registry untouched, and on failure propagates the
OS error unchanged with no retry. -/
theorem c4_direct_bind (tryBind : Nat → GBindOutcome) (st : PortState)
    (port : Nat) (h : port ≠ 0 ∨ (st.minimum = 0 ∧ st.maximum = 0)) :
    (arv_socket_bind_with_range tryBind st port).attempts = [port] ∧
    (arv_socket_bind_with_range tryBind st port).finalState = st ∧
    (tryBind port = .success →
      (arv_socket_bind_with_range tryBind st port).result = .ok port) ∧
    (∀ e, tryBind port = .failure e →
      (arv_socket_bind_with_range tryBind st port).result =
        .error (.propagated e)) := by
  rw [arv_socket_bind_with_range, if_pos h]
  cases hb : tryBind port with
  | success =>
    refine ⟨rfl, rfl, fun _ => rfl, fun e he => ?_⟩
    exact absurd he (by simp)
  | failure e0 =>
    refine ⟨rfl, rfl, fun hs => ?_, fun e he => ?_⟩
    · exact absurd hs (by simp)
    · simp only [GBindOutcome.failure.injEq] at he
      rw [he]

/-- C4 witness: an explicit port 12345 with a configured range
[100, 200] and an oracle failing with an arbitrary OS error: the single
attempt is at 12345 and the error comes back unchanged. -/
theorem c4_direct_bind_witness :
    (arv_socket_bind_with_range (fun _ => .failure (some ⟨7, 9⟩))
        ⟨100, 200, 100⟩ 12345).attempts = [12345] ∧
    (arv_socket_bind_with_range (fun _ => .failure (some ⟨7, 9⟩))
        ⟨100, 200, 100⟩ 12345).finalState = ⟨100, 200, 100⟩ ∧
    ((fun _ => GBindOutcome.failure (some ⟨7, 9⟩)) 12345 = .success →
      (arv_socket_bind_with_range (fun _ => .failure (some ⟨7, 9⟩))
        ⟨100, 200, 100⟩ 12345).result = .ok 12345) ∧
    (∀ e, (fun _ => GBindOutcome.failure (some ⟨7, 9⟩)) 12345 = .failure e →
      (arv_socket_bind_with_range (fun _ => .failure (some ⟨7, 9⟩))
        ⟨100, 200, 100⟩ 12345).result = .error (.propagated e)) :=
  c4_direct_bind (fun _ => .failure (some ⟨7, 9⟩)) ⟨100, 200, 100⟩ 12345
    (Or.inl (by decide))

/-- C5: setPortRange with min > max fails and leaves the registry
(minimum, maximum, lastOffset) exactly as it was; with min ≤ max it
succeeds, installs the bounds and sets lastOffset = max − min, so that
the very first candidate of the next automatic-port scan (under any
bind oracle) is offset 0, i.e. port min. -/
theorem c5_set_port_range (st : PortState) (mn mx : Nat) :
    (mx < mn → arv_set_gv_port_range st mn mx = (false, st)) ∧
    (mn ≤ mx →
      arv_set_gv_port_range st mn mx =
          (true, ⟨mn, mx, mx - mn⟩) ∧
        (¬(mn = 0 ∧ mx = 0) → ∀ tryBind,
          (arv_socket_bind_with_range tryBind ⟨mn, mx, mx - mn⟩
            0).attempts[0]? = some mn)) := by
  constructor
  · intro hlt
    rw [arv_set_gv_port_range, if_neg (by omega)]
  · intro hle
    constructor
    · rw [arv_set_gv_port_range, if_pos hle]
    · intro hen tryBind
      have hcond : ¬((0 : Nat) ≠ 0 ∨
          (PortState.mk mn mx (mx - mn)).minimum = 0 ∧
            (PortState.mk mn mx (mx - mn)).maximum = 0) := by
        simpa using hen
      rw [arv_socket_bind_with_range, if_neg hcond]
      have hhead := scanLoop_head tryBind mn mx (mx - mn) (mx - mn)
      simpa [Nat.mod_self] using hhead

/-- C5 witness: setPortRange(5, 3) on state (1, 2, 3) fails without
mutation; setPortRange(9000, 9002) installs (9000, 9002, 2) and the
next scan's first candidate is port 9000. -/
theorem c5_set_port_range_witness :
    ((3 : Nat) < 5 ∧ arv_set_gv_port_range ⟨1, 2, 3⟩ 5 3 = (false, ⟨1, 2, 3⟩)) ∧
    ((9000 : Nat) ≤ 9002 ∧
      arv_set_gv_port_range ⟨1, 2, 3⟩ 9000 9002 = (true, ⟨9000, 9002, 2⟩) ∧
      (arv_socket_bind_with_range (fun _ => .success) ⟨9000, 9002, 2⟩
        0).attempts[0]? = some 9000) :=
  ⟨⟨by decide, (c5_set_port_range ⟨1, 2, 3⟩ 5 3).1 (by decide)⟩,
    ⟨by decide, ((c5_set_port_range ⟨1, 2, 3⟩ 9000 9002).2 (by decide)).1,
      ((c5_set_port_range ⟨1, 2, 3⟩ 9000 9002).2 (by decide)).2 (by decide)
        (fun _ => .success)⟩⟩

/-- C6 counterexample: the string "100-200\n" does not match the
claim's exact pattern <digits>-<digits> (it carries a trailing
newline), yet setPortRangeFromString succeeds on it and installs the
range (100, 200), because the GRegex is compiled without
G_REGEX_DOLLAR_ENDONLY and its default dollar anchor also matches
immediately before one final newline. -/
theorem c6_counterexample_trailing_newline :
    matchesExactRangePattern "100-200\n" = false ∧
    arv_set_gv_port_range_from_string ⟨1, 2, 3⟩ "100-200\n" =
      (true, ⟨100, 200, 100⟩) :=
  ⟨rfl, rfl⟩

/-- C6 (amended): setPortRangeFromString "100-200" — and, by the
default dollar anchor, "100-200\n" as well — produces exactly the
result and final registry state of setPortRange 100 200; a string
failing the pattern <digits>-<digits> even after removal of an
optional single trailing newline (such as "abc" or "100-"), and a
parsed pair whose (guint16-truncated) min exceeds its max, return
failure leaving the registry state unchanged. -/
theorem c6_amended_from_string (st : PortState) :
    arv_set_gv_port_range_from_string st "100-200" =
        arv_set_gv_port_range st 100 200 ∧
    arv_set_gv_port_range_from_string st "100-200\n" =
        arv_set_gv_port_range st 100 200 ∧
    arv_set_gv_port_range_from_string st "abc" = (false, st) ∧
    arv_set_gv_port_range_from_string st "100-" = (false, st) ∧
    (∀ s, parsePortRange s = none →
      arv_set_gv_port_range_from_string st s = (false, st)) ∧
    (∀ s a b, parsePortRange s = some (a, b) → b % 65536 < a % 65536 →
      arv_set_gv_port_range_from_string st s = (false, st)) := by
  refine ⟨rfl, rfl, rfl, rfl, ?_, ?_⟩
  · intro s hs
    rw [arv_set_gv_port_range_from_string, hs]
  · intro s a b hs hba
    rw [arv_set_gv_port_range_from_string, hs]
    simp only []
    rw [if_pos hba]

/-- C6 amended witness: on registry state (1, 2, 3), the string "9-5"
parses to (9, 5) with 5 < 9 and fails without mutation, as does the
unparsable "xyz"; "100-200" equals the direct call. -/
theorem c6_amended_from_string_witness :
    (arv_set_gv_port_range_from_string ⟨1, 2, 3⟩ "100-200" =
      arv_set_gv_port_range ⟨1, 2, 3⟩ 100 200) ∧
    (parsePortRange "xyz" = none ∧
      arv_set_gv_port_range_from_string ⟨1, 2, 3⟩ "xyz" = (false, ⟨1, 2, 3⟩)) ∧
    (parsePortRange "9-5" = some (9, 5) ∧ 5 % 65536 < 9 % 65536 ∧
      arv_set_gv_port_range_from_string ⟨1, 2, 3⟩ "9-5" = (false, ⟨1, 2, 3⟩)) :=
  ⟨(c6_amended_from_string ⟨1, 2, 3⟩).1,
    ⟨by decide, (c6_amended_from_string ⟨1, 2, 3⟩).2.2.2.2.1 "xyz" (by decide)⟩,
    ⟨by decide, by decide,
      (c6_amended_from_string ⟨1, 2, 3⟩).2.2.2.2.2 "9-5" 9 5 (by decide)
        (by decide)⟩⟩

/-- C7: after setPortRange(9000, 9002), with every port free (an
all-success bind oracle), three sequential automatic-port binds to the
same address return the three distinct ports 9000, 9001 and 9002 —
the whole range before any repeat — because each call advances the
shared cursor once before its (successful) single attempt and the
cursor is carried over, never reset, between the independent calls. -/
theorem c7_three_binds_cover_range (st : PortState) :
    (arv_socket_bind_with_range (fun _ => .success)
        (arv_set_gv_port_range st 9000 9002).2 0).result = .ok 9000 ∧
    (arv_socket_bind_with_range (fun _ => .success)
        (arv_socket_bind_with_range (fun _ => .success)
          (arv_set_gv_port_range st 9000 9002).2 0).finalState 0).result =
      .ok 9001 ∧
    (arv_socket_bind_with_range (fun _ => .success)
        (arv_socket_bind_with_range (fun _ => .success)
          (arv_socket_bind_with_range (fun _ => .success)
            (arv_set_gv_port_range st 9000 9002).2 0).finalState
          0).finalState 0).result = .ok 9002 := by
  have h1 : (arv_set_gv_port_range st 9000 9002).2 = ⟨9000, 9002, 2⟩ := rfl
  rw [h1]
  have h2 : (arv_socket_bind_with_range (fun _ => .success)
      (⟨9000, 9002, 2⟩ : PortState) 0).finalState = ⟨9000, 9002, 0⟩ := rfl
  rw [h2]
  have h3 : (arv_socket_bind_with_range (fun _ => .success)
      (⟨9000, 9002, 0⟩ : PortState) 0).finalState = ⟨9000, 9002, 1⟩ := rfl
  rw [h3]
  exact ⟨rfl, rfl, rfl⟩

/-- C2 (evaluation at the claim's inputs): isLoopback agrees with the
claim on IPv4 — true for 127.0.0.1 and 127.5.5.5, false for 10.0.0.1 —
but on IPv6 the code's loop demands bytes 0 through 15 all zero before
its final test, so the canonical ::1 (fifteen zeros then 1) returns
FALSE, contradicting the claim; ::2 returns false as claimed. -/
theorem c2_is_loopback_eval :
    arv_network_interface_is_loopback
        (some ⟨.ipv4 127 0 0 1, none, none, none⟩) = some true ∧
    arv_network_interface_is_loopback
        (some ⟨.ipv4 127 5 5 5, none, none, none⟩) = some true ∧
    arv_network_interface_is_loopback
        (some ⟨.ipv4 10 0 0 1, none, none, none⟩) = some false ∧
    arv_network_interface_is_loopback
        (some ⟨.ipv6 (List.replicate 15 0 ++ [1]), none, none, none⟩) =
      some false ∧
    arv_network_interface_is_loopback
        (some ⟨.ipv6 (List.replicate 15 0 ++ [2]), none, none, none⟩) =
      some false := by
  refine ⟨rfl, rfl, rfl, by decide, by decide⟩

/-- C8: fakeLoopback always returns the descriptor with the fixed
sentinel name "<fake IPv4 localhost>", address 127.0.0.1, netmask
255.0.0.0 and broadcast 127.255.255.255, and isLoopback holds of it. -/
theorem c8_fake_loopback :
    arv_network_get_fake_ipv4_loopback.name = some "<fake IPv4 localhost>" ∧
    arv_network_get_fake_ipv4_loopback.addr = .ipv4 127 0 0 1 ∧
    arv_network_get_fake_ipv4_loopback.netmask = some (.ipv4 255 0 0 0) ∧
    arv_network_get_fake_ipv4_loopback.broadaddr =
      some (.ipv4 127 255 255 255) ∧
    arv_network_interface_is_loopback
      (some arv_network_get_fake_ipv4_loopback) = some true :=
  ⟨rfl, rfl, rfl, rfl, rfl⟩

/-- C9 counterexample: on the non-Apple/BSD POSIX build, an up AF_INET
interface whose platform metadata exposes no broadcast address is
accepted by the enumeration, yet its descriptor's broadcast address is
absent (NULL), not the interface's own address. -/
theorem c9_counterexample :
    ¬ (∀ d ∈ arv_enumerate_network_interfaces ArvPlatform.posix_other
        [⟨1, some (.ipv4 127 0 0 1), some (.ipv4 255 0 0 0), none,
          some "lo"⟩],
        d.broadaddr = some d.addr) := by
  decide

/-- C9 (amended): on the Apple/BSD build — the branch that implements
the loopback-compatibility default — every accepted interface whose
platform metadata exposes no broadcast address yields a descriptor in
the enumeration whose broadcast address equals its own address; on the
other POSIX build the broadcast address simply stays absent. -/
theorem c9_amended_broadcast_default (entries : List Ifaddrs) (e : Ifaddrs)
    (hmem : e ∈ entries) (hacc : acceptsEntry e = true)
    (hnb : e.broadaddr = none) :
    mkInterface ArvPlatform.apple_bsd e ∈
        arv_enumerate_network_interfaces ArvPlatform.apple_bsd entries ∧
    (mkInterface ArvPlatform.apple_bsd e).broadaddr =
        some (mkInterface ArvPlatform.apple_bsd e).addr ∧
    (mkInterface ArvPlatform.posix_other e).broadaddr = none := by
  refine ⟨?_, ?_, ?_⟩
  · rw [enumerate_eq_filter_map]
    exact List.mem_map_of_mem _ (List.mem_filter.mpr ⟨hmem, hacc⟩)
  · simp [mkInterface, hnb]
  · simp [mkInterface, hnb]

/-- C9 amended witness: the loopback-style entry with no broadcast
exposed, on each build. -/
theorem c9_amended_broadcast_default_witness :
    ((⟨1, some (.ipv4 127 0 0 1), some (.ipv4 255 0 0 0), none, some "lo"⟩ :
        Ifaddrs) ∈
      [(⟨1, some (.ipv4 127 0 0 1), some (.ipv4 255 0 0 0), none,
        some "lo"⟩ : Ifaddrs)] ∧
     acceptsEntry ⟨1, some (.ipv4 127 0 0 1), some (.ipv4 255 0 0 0), none,
        some "lo"⟩ = true) ∧
    (mkInterface ArvPlatform.apple_bsd
        ⟨1, some (.ipv4 127 0 0 1), some (.ipv4 255 0 0 0), none, some "lo"⟩ ∈
      arv_enumerate_network_interfaces ArvPlatform.apple_bsd
        [⟨1, some (.ipv4 127 0 0 1), some (.ipv4 255 0 0 0), none,
          some "lo"⟩] ∧
     (mkInterface ArvPlatform.apple_bsd
        ⟨1, some (.ipv4 127 0 0 1), some (.ipv4 255 0 0 0), none,
          some "lo"⟩).broadaddr =
       some (mkInterface ArvPlatform.apple_bsd
        ⟨1, some (.ipv4 127 0 0 1), some (.ipv4 255 0 0 0), none,
          some "lo"⟩).addr ∧
     (mkInterface ArvPlatform.posix_other
        ⟨1, some (.ipv4 127 0 0 1), some (.ipv4 255 0 0 0), none,
          some "lo"⟩).broadaddr = none) :=
  ⟨⟨by decide, by decide⟩,
    c9_amended_broadcast_default _ _ (by decide) (by decide) rfl⟩

/-- C10: in the IPv6 branch, once the loop has checked that all bytes
at positions 0 through 15 of the 16-byte address are zero — as happens
for the all-zeros address :: — the code reads the byte at index 16, one
past the end of sin6_addr; under total Option-valued indexing that
access is out of bounds and the function's value is undefined (none)
for that reachable input. -/
theorem c10_ipv6_reads_past_end (bytes : List Nat)
    (hlen : bytes.length = 16) (hz : ∀ i < 16, bytes[i]? = some 0) :
    arv_network_interface_is_loopback
      (some ⟨.ipv6 bytes, none, none, none⟩) = none := by
  simp only [arv_network_interface_is_loopback]
  exact ipv6ScanFrom_all_zero bytes hlen hz 16 0 rfl

/-- C10 witness: the all-zeros address ::. -/
theorem c10_ipv6_reads_past_end_witness :
    ((List.replicate 16 0).length = 16 ∧
      (∀ i < 16, (List.replicate 16 (0 : Nat))[i]? = some 0)) ∧
    arv_network_interface_is_loopback
      (some ⟨.ipv6 (List.replicate 16 0), none, none, none⟩) = none :=
  ⟨⟨by decide, by decide⟩,
    c10_ipv6_reads_past_end (List.replicate 16 0) (by decide) (by decide)⟩
